import Mathlib

/-!
Verification of the row-classification and stateful-extraction engine of
`200M Data/Parser.py` (TrackAndFieldAnalytics).

Modelling conventions (shallow embedding):
* Cells are `String`; rows are `List String`.
* Python floats are modelled by exact rationals `ℚ`; Python `round(x, 2)`
  is modelled by exact round-half-to-even at two decimals (`round2`).
* A Python dict value that may be `None` is `Option _`; a dict key that may
  be absent is one more `Option` layer, so a `Pending` field of type
  `Option (Option α)` distinguishes key-absent (`none`) from
  key-present-with-`None` (`some none`).  Dict emptiness (`if not pending`)
  is equality with the all-absent record.
* `re.search(r"\([A-Z]{3}\)\s*\(\d{4}\)", c)` is modelled by an explicit
  scan (`patSearch`); ASCII classes are used for `[A-Z]` and `\d`.
* The module-level script state (`records`, `current_athlete`,
  `current_meet`, `current_source`, `pending`) is the structure
  `ParserState`; the row `for` loop is `stepRow`, folded by `parseCSVRows`
  which also performs the read-time cell normalization and the final flush.
-/

attribute [local semireducible] Rat.mul Rat.inv Rat.add Rat.sub Rat.ofScientific

namespace TrackParser

/-- Whitespace stripped by Python's `str.strip()` (ASCII part). -/
def isPySpace (c : Char) : Bool :=
  c.isWhitespace || c = '\x0b' || c = '\x0c'

/-- Strip characters satisfying `p` from both ends of a character list. -/
def stripEnds (p : Char → Bool) (cs : List Char) : List Char :=
  ((cs.dropWhile p).reverse.dropWhile p).reverse

/-- `norm` from Parser.py: replace NBSP by a space, delete zero-width
spaces, strip surrounding whitespace, then strip surrounding `"` quotes. -/
def norm (s : String) : String :=
  let cs := s.toList.map (fun c => if c = '\u00A0' then ' ' else c)
  let cs := cs.filter (fun c => c != '\u200B')
  String.mk (stripEnds (fun c => c = '"') (stripEnds isPySpace cs))

/-- Python `str.lower()` (ASCII model), implemented structurally so the
kernel can evaluate it. -/
def toLowerStr (s : String) : String :=
  String.mk (s.toList.map Char.toLower)

/-- Python `str.upper()` (ASCII model), implemented structurally. -/
def toUpperStr (s : String) : String :=
  String.mk (s.toList.map Char.toUpper)

/-- Does `pat` occur at the head of `text`? (substring matching helper) -/
def leadsWith : List Char → List Char → Bool
  | [], _ => true
  | _ :: _, [] => false
  | p :: ps, c :: cs => p = c && leadsWith ps cs

/-- Does `pat` occur anywhere in `text`? (Python's `in` for strings) -/
def hasSubChars (pat : List Char) : List Char → Bool
  | [] => leadsWith pat []
  | c :: cs => leadsWith pat (c :: cs) || hasSubChars pat cs

/-- Python `pat in hay` for strings. -/
def containsStr (hay pat : String) : Bool :=
  hasSubChars pat.toList hay.toList

/-- Characters kept by `re.sub(r"[^0-9.\-]+", "", s)`:
digits, the dot, and the minus sign (anywhere in the string). -/
def keepNumChar (c : Char) : Bool :=
  c.isDigit || c = '.' || c = '-'

/-- Value of a list of decimal digit characters. -/
def digitsVal (cs : List Char) : Nat :=
  cs.foldl (fun a c => a * 10 + (c.toNat - 48)) 0

/-- Python `float()` on an unsigned string drawn from `{0-9, ., -}`:
`d+`, `d+.d*` or `.d+`, nothing else. -/
def pyFloatMag (cs : List Char) : Option ℚ :=
  let ip := cs.takeWhile Char.isDigit
  let rest := cs.dropWhile Char.isDigit
  match rest with
  | [] => if ip.isEmpty then none else some (digitsVal ip)
  | '.' :: fr =>
      if fr.all Char.isDigit && !(ip.isEmpty && fr.isEmpty) then
        some ((digitsVal ip : ℚ) + (digitsVal fr : ℚ) / (10 ^ fr.length))
      else none
  | _ => none

/-- Python `float()` on a string drawn from `{0-9, ., -}`: an optional
leading minus, then an unsigned float; any other `-` fails. -/
def pyFloatChars (cs : List Char) : Option ℚ :=
  match cs with
  | '-' :: rest => (pyFloatMag rest).map (fun q => -q)
  | _ => pyFloatMag cs

/-- `parse_float` from Parser.py. -/
def parse_float (x : String) : Option ℚ :=
  let s := norm x
  if s = "" || toUpperStr s = "NA" || toUpperStr s = "NULL" then none
  else
    let t := String.mk (s.toList.filter keepNumChar)
    if t = "" || t = "-" || t = "--" then none
    else pyFloatChars t.toList

/-- Tail of the athlete pattern: `\(\d{4}\)` at the head of the list. -/
def yearPat : List Char → Bool
  | '(' :: d1 :: d2 :: d3 :: d4 :: ')' :: _ =>
      d1.isDigit && d2.isDigit && d3.isDigit && d4.isDigit
  | _ => false

/-- `\([A-Z]{3}\)\s*\(\d{4}\)` anchored at the head of the list. -/
def patAt : List Char → Bool
  | '(' :: u1 :: u2 :: u3 :: ')' :: rest =>
      u1.isUpper && u2.isUpper && u3.isUpper &&
        yearPat (rest.dropWhile Char.isWhitespace)
  | _ => false

/-- `re.search` of the athlete pattern: try every start position. -/
def patSearch : List Char → Bool
  | [] => false
  | c :: cs => patAt (c :: cs) || patSearch cs

/-- `looks_like_athlete` from Parser.py. -/
def looks_like_athlete (cell : String) : Bool :=
  patSearch (norm cell).toList

/-- `is_source_text` from Parser.py. -/
def is_source_text (txt : String) : Bool :=
  ["Timing", "www.", "Tsuchie", "analysis", "run speed"].any
    (fun k => containsStr txt k)

/-- `row_contains_token` from Parser.py. -/
def row_contains_token (row : List String) (token : String) : Bool :=
  row.any (fun c => toLowerStr (norm c) = toLowerStr token)

/-- `find_token_idx` from Parser.py. -/
def find_token_idx (row : List String) (token : String) : Option Nat :=
  row.findIdx? (fun c => toLowerStr (norm c) = toLowerStr token)

/-- `first_nonempty_after` from Parser.py: the first cell after
`start_idx` whose normalization is non-empty (the cell itself). -/
def first_nonempty_after (row : List String) (start_idx : Nat) : Option String :=
  (row.drop (start_idx + 1)).find? (fun c => norm c != "")

/-- `last_nonempty` from Parser.py. -/
def last_nonempty (row : List String) : Option String :=
  row.reverse.find? (fun c => norm c != "")

/-- `is_meet_line` from Parser.py. -/
def is_meet_line (row : List String) : Bool :=
  match row with
  | c0 :: c1 :: _ =>
      let n0 := norm c0
      let n1 := norm c1
      n0 = "" && n1 != "" &&
        (containsStr n1 " - " || (n1.toList.contains '(' && n1.toList.contains ')'))
  | _ => false

/-- Round-half-to-even to an integer, as Python's `round` (on exact
rational input). -/
def rhe (q : ℚ) : ℤ :=
  let f : ℤ := ⌊q⌋
  if q - f < 1 / 2 then f
  else if 1 / 2 < q - f then f + 1
  else if f % 2 = 0 then f else f + 1

/-- Python `round(x, 2)` modelled exactly on rationals. -/
def round2 (q : ℚ) : ℚ :=
  (rhe (q * 100) : ℚ) / 100

/-- The `pending` dict.  `none` = key absent; `some none` = key present
with value `None`; `some (some v)` = key present with value `v`. -/
structure Pending where
  athlete : Option (Option String) := none
  meetInfo : Option (Option String) := none
  date : Option (Option String) := none
  s50 : Option (Option ℚ) := none
  s100 : Option (Option ℚ) := none
  s150 : Option (Option ℚ) := none
  s200 : Option (Option ℚ) := none
  timeF : Option (Option ℚ) := none
  lanePlace : Option (Option String) := none
  source : Option (Option String) := none
  rt : Option (Option ℚ) := none
  wind : Option String := none
  vel50 : Option ℚ := none
  vel100 : Option ℚ := none
  vel150 : Option ℚ := none
  vel200 : Option ℚ := none
  strideRate : Option Nat := none
  d0_100 : Option ℚ := none
  vel_0_100 : Option (Option ℚ) := none
  d100_200 : Option ℚ := none
  vel_100_200 : Option (Option ℚ) := none
  differential : Option ℚ := none
  key : Option String := none
  deriving Repr, DecidableEq

/-- `compute_derived` from Parser.py (`p.get` joins the two Option
layers: absent and present-`None` both read as `None`). -/
def compute_derived (p : Pending) : Pending :=
  let t100 := p.s100.join
  let t200 := p.s200.join
  let p1 :=
    match t100 with
    | some v =>
        { p with d0_100 := some (round2 v),
                 vel_0_100 := some (if 0 < v then some (round2 (100 / v)) else none) }
    | none => p
  match t100, t200 with
  | some v, some w =>
      let seg2 := w - v
      { p1 with d100_200 := some (round2 seg2),
                vel_100_200 := some (if 0 < seg2 then some (round2 (100 / seg2)) else none),
                differential := some (round2 (seg2 - v)) }
  | _, _ => p1

/-- Result of the split extraction: four splits and the official time. -/
structure SplitRes where
  a : ℚ
  b : ℚ
  c : ℚ
  d : ℚ
  t : ℚ
  deriving Repr, DecidableEq

/-- Strategy A (after the `time` anchor): five or more numerics give the
four splits plus the official time; exactly four give the splits with the
official time defaulting to the 200m split; otherwise nothing. -/
def stratA (nums : List ℚ) : Option SplitRes :=
  match nums with
  | a :: b :: c :: d :: e :: _ => some ⟨a, b, c, d, e⟩
  | [a, b, c, d] => some ⟨a, b, c, d, d⟩
  | _ => none

/-- Strategy B (whole-row rescan): four or more numerics give the four
splits; a fifth, when present, is the official time, else it defaults to
the 200m split. -/
def stratB (nums : List ℚ) : Option SplitRes :=
  match nums with
  | a :: b :: c :: d :: e :: _ => some ⟨a, b, c, d, e⟩
  | [a, b, c, d] => some ⟨a, b, c, d, d⟩
  | _ => none

/-- Numeric-parseable cells strictly after index `t`. -/
def numsAfter (row : List String) (t : Nat) : List ℚ :=
  (row.drop (t + 1)).filterMap parse_float

/-- Numeric-parseable cells of the whole row. -/
def allNums (row : List String) : List ℚ :=
  row.filterMap parse_float

/-- The two-tier split extraction of the Date-row branch: strategy A
after the `time` anchor, falling back to a whole-row rescan when the 50m
split is still absent. -/
def splitResult (row : List String) : Option SplitRes :=
  match find_token_idx row "time" with
  | some t =>
      match stratA (numsAfter row t) with
      | some r => some r
      | none => stratB (allNums row)
  | none => stratB (allNums row)

/-- The module-level mutable state of Parser.py. -/
structure ParserState where
  records : List Pending
  athleteC : Option String
  meetC : Option String
  sourceC : Option String
  pending : Pending
  deriving Repr, DecidableEq

def initState : ParserState :=
  { records := [], athleteC := none, meetC := none, sourceC := none, pending := {} }

/-- `f'{pending.get("Athlete","")}'`: absent key reads as `""`, a
present `None` renders as the string `"None"`. -/
def fieldStr (o : Option (Option String)) : String :=
  match o with
  | none => ""
  | some none => "None"
  | some (some s) => s

/-- `{sr if sr is not None else ""}` for the stride rate. -/
def srStr (o : Option Nat) : String :=
  match o with
  | none => ""
  | some n => toString n

/-- Python `s.strip("_")`: drop all leading and trailing underscores. -/
def stripUnderscores (s : String) : String :=
  String.mk (stripEnds (fun c => c = '_') s.toList)

/-- The `Ath_Mt_Strd` key as built in `flush`. -/
def keyOfComponents (a m s : String) : String :=
  stripUnderscores (a ++ "_" ++ m ++ "_" ++ s)

/-- Truthiness of `pending.get("Source")`: falsy when the key is absent,
`None`, or the empty string. -/
def srcTruthy (o : Option (Option String)) : Bool :=
  match o with
  | some (some s) => s != ""
  | _ => false

/-- The body of `flush` on a non-empty pending dict: derived metrics, the
composite key, and the source inherited from context when unset. -/
def finalizePending (curSource : Option String) (p : Pending) : Pending :=
  let p := compute_derived p
  let p := { p with
    key := some (keyOfComponents (fieldStr p.athlete) (fieldStr p.meetInfo) (srStr p.strideRate)) }
  match curSource with
  | some s =>
      if s != "" && !srcTruthy p.source then { p with source := some (some s) } else p
  | none => p

/-- `flush` from Parser.py: a no-op on an empty pending dict, otherwise
finalize it, append it to the records, and reset the accumulator. -/
def flushState (st : ParserState) : ParserState :=
  if st.pending = ({} : Pending) then st
  else
    { st with records := st.records ++ [finalizePending st.sourceC st.pending],
              pending := {} }

/-- Athlete-header branch of the row loop. -/
def handleAthlete (st : ParserState) (c0 : String) : ParserState :=
  let st := flushState st
  { st with athleteC := some c0, meetC := none, sourceC := none }

/-- Meet-line branch of the row loop. -/
def handleMeet (st : ParserState) (row : List String) : ParserState :=
  let meet := (row.drop 1).findSome? (fun c => if norm c = "" then none else some (norm c))
  let st1 := { st with meetC := match meet with | some m => some m | none => st.meetC }
  let tail := if 2 < row.length then last_nonempty (row.drop 2) else none
  match tail with
  | some t => if t != "" && is_source_text t then { st1 with sourceC := some t } else st1
  | none => st1

/-- Standalone-source branch of the row loop. -/
def handleSource (st : ParserState) (row : List String) : ParserState :=
  match last_nonempty row with
  | some m => if m != "" then { st with sourceC := some m } else st
  | none => st

/-- Date-row branch of the row loop. -/
def handleDate (st : ParserState) (row : List String) (d_idx : Nat) : ParserState :=
  let st := flushState st
  let t_idx := find_token_idx row "time"
  let lane_place :=
    match t_idx with
    | some t => (row.drop (t + 1)).find? (fun c => c.toList.contains '/')
    | none => none
  let res := splitResult row
  let p : Pending :=
    { athlete := some st.athleteC,
      meetInfo := some st.meetC,
      date := some (first_nonempty_after row d_idx),
      s50 := some (res.map (fun r => r.a)),
      s100 := some (res.map (fun r => r.b)),
      s150 := some (res.map (fun r => r.c)),
      s200 := some (res.map (fun r => r.d)),
      timeF := some (res.map (fun r => r.t)),
      lanePlace := some lane_place,
      source := some st.sourceC }
  { st with pending := p }

/-- Reaction-time branch of the row loop.  Note: no open-record guard in
the source; the value is written into whatever `pending` currently is. -/
def handleRT (st : ParserState) (row : List String) (rt_idx : Nat) : ParserState :=
  match first_nonempty_after row rt_idx with
  | some v =>
      if v != "" then { st with pending := { st.pending with rt := some (parse_float v) } }
      else st
  | none => st

/-- Wind/velocities branch of the row loop.  Only the `Wind` assignment
is guarded by the truthiness of the cell after the wind anchor; the
velocity/stride-rate extraction runs whenever a `velocity` anchor exists
in the row, even when no non-empty cell follows the wind anchor. -/
def handleWind (st : ParserState) (row : List String) (w_idx : Nat) : ParserState :=
  let p0 :=
    match first_nonempty_after row w_idx with
    | some wv => if wv != "" then { st.pending with wind := some wv } else st.pending
    | none => st.pending
  match find_token_idx row "velocity" with
  | none => { st with pending := p0 }
  | some v_idx =>
      let vel_vals := ((row.drop (v_idx + 1)).take 9).filterMap parse_float
      let p1 := { p0 with
        vel50 := match vel_vals.get? 0 with | some v => some v | none => p0.vel50,
        vel100 := match vel_vals.get? 1 with | some v => some v | none => p0.vel100,
        vel150 := match vel_vals.get? 2 with | some v => some v | none => p0.vel150,
        vel200 := match vel_vals.get? 3 with | some v => some v | none => p0.vel200 }
      let sr := (row.drop (v_idx + 1)).findSome? (fun c =>
        let sc := norm c
        if sc != "" && sc.toList.all Char.isDigit then
          let iv := digitsVal sc.toList
          if 20 ≤ iv && iv ≤ 130 then some iv else none
        else none)
      let p2 := { p1 with
        strideRate := match sr with | some n => some n | none => p1.strideRate }
      { st with pending := p2 }

/-- Remove trailing empty cells (the `while row and row[-1] == ""` loop). -/
def trimTrailing (row : List String) : List String :=
  (row.reverse.dropWhile (fun c => c = "")).reverse

/-- `",".join(row)`. -/
def joinRow (row : List String) : String :=
  match row with
  | [] => ""
  | c :: cs => cs.foldl (fun acc x => acc ++ "," ++ x) c

/-- One iteration of the row loop of Parser.py, in the source's branch
order: athlete header, meet line, standalone source, date row, reaction
time, wind; anything else leaves the state unchanged. -/
def stepRow (st : ParserState) (row0 : List String) : ParserState :=
  let row := trimTrailing row0
  match row with
  | [] => st
  | c0 :: _ =>
      if looks_like_athlete c0 then handleAthlete st c0
      else if is_meet_line row then handleMeet st row
      else if is_source_text (joinRow row) && !row_contains_token row "date" then
        handleSource st row
      else
        match find_token_idx row "date" with
        | some d_idx => handleDate st row d_idx
        | none =>
            match find_token_idx row "reaction time" with
            | some rt_idx => handleRT st row rt_idx
            | none =>
                match find_token_idx row "wind" with
                | some w_idx => handleWind st row w_idx
                | none => st

/-- The whole parsing pass: normalize every cell at read time, run the
row loop over all rows, and flush the last performance. -/
def parseCSVRows (rows : List (List String)) : ParserState :=
  flushState ((rows.map (fun r => r.map norm)).foldl stepRow initState)

end TrackParser

namespace TrackParser

/-! ### Spec-side definitions (for refinement claims) -/

/-- Defined from the claim C6's words: strip every character that is not
a digit, a decimal point, or a *leading* minus sign, then attempt numeric
conversion.  (The source keeps minus signs anywhere; this definition is
what the claim describes, kept for comparison.) -/
def parse_number_spec (x : String) : Option ℚ :=
  let s := norm x
  if s = "" || toUpperStr s = "NA" || toUpperStr s = "NULL" then none
  else
    let kept :=
      match s.toList with
      | c :: rest =>
          (if c.isDigit || c = '.' || c = '-' then [c] else []) ++
            rest.filter (fun c2 => c2.isDigit || c2 = '.')
      | [] => []
    pyFloatChars kept

/-- Claim C6 as amended: empty/NA/NULL absent; strip every character
that is not a digit, a decimal point, or a minus sign (kept wherever it
occurs); conversion failure yields absent. -/
def parse_number_amended (x : String) : Option ℚ :=
  let s := norm x
  if s = "" || toUpperStr s = "NA" || toUpperStr s = "NULL" then none
  else pyFloatChars (s.toList.filter keepNumChar)

/-- Defined from claim C7's words: join the components with the
separator, omitting empty components. -/
def joinOmitEmpty (comps : List String) : String :=
  match comps.filter (fun s => s != "") with
  | [] => ""
  | c :: cs => cs.foldl (fun acc x => acc ++ "_" ++ x) c

/-- The three key components of a completed record, as `flush` renders
them (absent keys read as `""`, a present `None` renders as `"None"`). -/
def componentsOf (p : Pending) : List String :=
  [fieldStr p.athlete, fieldStr p.meetInfo, srStr p.strideRate]

/-- Row-category predicates mirroring the guards of the row loop, in the
source's evaluation order. -/
def isAthleteRow (row : List String) : Bool :=
  match trimTrailing row with
  | [] => false
  | c0 :: _ => looks_like_athlete c0

def isMeetRow (row : List String) : Bool :=
  match trimTrailing row with
  | [] => false
  | c0 :: rest => !looks_like_athlete c0 && is_meet_line (c0 :: rest)

def isSourceRow (row : List String) : Bool :=
  match trimTrailing row with
  | [] => false
  | c0 :: rest =>
      !looks_like_athlete c0 && !is_meet_line (c0 :: rest) &&
        (is_source_text (joinRow (c0 :: rest)) && !row_contains_token (c0 :: rest) "date")

/-! ### Helper lemmas -/

theorem flushState_athleteC (st : ParserState) : (flushState st).athleteC = st.athleteC := by
  unfold flushState; split <;> rfl

theorem flushState_meetC (st : ParserState) : (flushState st).meetC = st.meetC := by
  unfold flushState; split <;> rfl

theorem flushState_sourceC (st : ParserState) : (flushState st).sourceC = st.sourceC := by
  unfold flushState; split <;> rfl

theorem flushState_pending (st : ParserState) : (flushState st).pending = ({} : Pending) := by
  unfold flushState; split
  · assumption
  · rfl

theorem handleMeet_athleteC (st : ParserState) (row : List String) :
    (handleMeet st row).athleteC = st.athleteC := by
  unfold handleMeet
  dsimp only
  split <;> (try split) <;> rfl

theorem handleMeet_pending (st : ParserState) (row : List String) :
    (handleMeet st row).pending = st.pending := by
  unfold handleMeet
  dsimp only
  split <;> (try split) <;> rfl

theorem handleMeet_records (st : ParserState) (row : List String) :
    (handleMeet st row).records = st.records := by
  unfold handleMeet
  dsimp only
  split <;> (try split) <;> rfl

theorem handleSource_fields (st : ParserState) (row : List String) :
    (handleSource st row).records = st.records ∧
    (handleSource st row).pending = st.pending ∧
    (handleSource st row).athleteC = st.athleteC ∧
    (handleSource st row).meetC = st.meetC := by
  unfold handleSource
  split
  · split <;> exact ⟨rfl, rfl, rfl, rfl⟩
  · exact ⟨rfl, rfl, rfl, rfl⟩

theorem handleDate_athleteC (st : ParserState) (row : List String) (d : Nat) :
    (handleDate st row d).athleteC = st.athleteC := by
  unfold handleDate
  simp [flushState_athleteC]

theorem handleDate_meetC (st : ParserState) (row : List String) (d : Nat) :
    (handleDate st row d).meetC = st.meetC := by
  unfold handleDate
  simp [flushState_meetC]

theorem handleDate_sourceC (st : ParserState) (row : List String) (d : Nat) :
    (handleDate st row d).sourceC = st.sourceC := by
  unfold handleDate
  simp [flushState_sourceC]

theorem handleRT_contexts (st : ParserState) (row : List String) (i : Nat) :
    (handleRT st row i).athleteC = st.athleteC ∧
    (handleRT st row i).meetC = st.meetC ∧
    (handleRT st row i).sourceC = st.sourceC ∧
    (handleRT st row i).records = st.records := by
  unfold handleRT
  split
  · split <;> exact ⟨rfl, rfl, rfl, rfl⟩
  · exact ⟨rfl, rfl, rfl, rfl⟩

theorem handleWind_contexts (st : ParserState) (row : List String) (i : Nat) :
    (handleWind st row i).athleteC = st.athleteC ∧
    (handleWind st row i).meetC = st.meetC ∧
    (handleWind st row i).sourceC = st.sourceC ∧
    (handleWind st row i).records = st.records := by
  unfold handleWind
  dsimp only
  split <;> exact ⟨rfl, rfl, rfl, rfl⟩

theorem rhe_nonneg (q : ℚ) (h : 0 ≤ q) : 0 ≤ rhe q := by
  unfold rhe
  have hf : (0 : ℤ) ≤ ⌊q⌋ := Int.floor_nonneg.mpr h
  dsimp only
  split_ifs <;> omega

theorem round2_nonneg (q : ℚ) (h : 0 ≤ q) : 0 ≤ round2 q := by
  unfold round2
  have h2 : (0 : ℚ) ≤ (rhe (q * 100) : ℚ) := by
    exact_mod_cast rhe_nonneg (q * 100) (by positivity)
  exact div_nonneg h2 (by norm_num)

/-! ### Claim theorems -/

/-- C9: flushing twice in succession appends at most one record: a flush
on an empty accumulator is a no-op, every flush leaves the accumulator
empty, so the second of two consecutive flushes changes nothing, and one
flush appends at most one record to the output. -/
theorem flush_idempotent (st : ParserState) :
    (flushState st).pending = ({} : Pending) ∧
    (st.pending = ({} : Pending) → flushState st = st) ∧
    flushState (flushState st) = flushState st ∧
    (flushState st).records.length ≤ st.records.length + 1 := by
  have hemp : ∀ s : ParserState, s.pending = ({} : Pending) → flushState s = s := by
    intro s h
    unfold flushState
    simp [h]
  refine ⟨flushState_pending st, hemp st, hemp _ (flushState_pending st), ?_⟩
  unfold flushState
  split
  · omega
  · simp

/-- Witness for C9: a flush of the initial (empty-accumulator) state is a
no-op. -/
theorem flush_idempotent_witness : flushState initState = initState :=
  (flush_idempotent initState).2.1 rfl

/-- C4: the Lausanne scenario.  The meet line sets the Meet context; the
Date row opens a pending record with splits 5.82 / 10.10 / 14.55 / 19.95
and Time 19.95; the flush produces exactly one completed record with
0-100m = 10.10, Vel_0_100m = 9.90, 100-200m = 9.85, Vel_100_200m = 10.15. -/
theorem lausanne_scenario :
    (stepRow initState ["", "Lausanne Diamond League - 200m"]).meetC =
      some "Lausanne Diamond League - 200m" ∧
    (let s2 := stepRow (stepRow initState ["", "Lausanne Diamond League - 200m"])
        ["Date", "", "14 JUN 2024", "Time", "", "5.82", "10.10", "14.55", "19.95", "19.95"]
     s2.pending.s50 = some (some (291 / 50)) ∧
     s2.pending.s100 = some (some (101 / 10)) ∧
     s2.pending.s150 = some (some (291 / 20)) ∧
     s2.pending.s200 = some (some (399 / 20)) ∧
     s2.pending.timeF = some (some (399 / 20)) ∧
     s2.pending.meetInfo = some (some "Lausanne Diamond League - 200m")) ∧
    (parseCSVRows [["", "Lausanne Diamond League - 200m"],
        ["Date", "", "14 JUN 2024", "Time", "", "5.82", "10.10", "14.55", "19.95", "19.95"]]).records.map
        (fun r => (r.d0_100, r.vel_0_100, r.d100_200, r.vel_100_200)) =
      [(some (101 / 10), some (some (99 / 10)), some (197 / 20), some (some (203 / 20)))] := by
  refine ⟨by decide, ⟨by decide, by decide, by decide, by decide, by decide, by decide⟩, by decide⟩

/-- Counterexample to C1: the row `["reaction time", "0.142"]` arriving
with *no* open record is not a no-op: the source writes the reaction time
into the empty accumulator, and the next flush emits that degenerate
record, so the output gains a record as a consequence of that row. -/
theorem reaction_time_no_open_record_cex :
    (parseCSVRows [["reaction time", "0.142"]]).records.map (fun r => r.rt) =
      [some (some (71 / 500))] := by
  decide

/-- Counterexample to C2: the row `["reaction time", "0.142", "analysis"]`
contains a cell normalizing to `"reaction time"` and its joined text
matches the source-marker test with no `"date"` token; the claimed
priority order (ReactionTimeRow before SourceLine) would store the
reaction time and leave the Source context unset, but the source checks
the standalone-source branch first: the Source context becomes
`"analysis"` and no reaction time is stored (no record ever forms). -/
theorem source_before_reaction_time_cex :
    (parseCSVRows [["reaction time", "0.142", "analysis"]]).sourceC = some "analysis" ∧
    (parseCSVRows [["reaction time", "0.142", "analysis"]]).records = [] := by
  exact ⟨by decide, by decide⟩

/-- Counterexample to C7: on the meet text `"M - N_"` with an absent
stride rate, `strip("_")` eats the trailing underscore that belongs to
the meet component itself, so the stored key differs from the
join-with-empty-components-omitted the claim describes. -/
theorem key_strip_cex :
    ((parseCSVRows [["x(USA) (1999)"], ["", "M - N_"], ["Date", "a", "1", "2", "3", "4"]]).records.map
      (fun r => (r.key, joinOmitEmpty (componentsOf r)))) =
      [(some "x(USA) (1999)_M - N", "x(USA) (1999)_M - N_")] ∧
    some ("x(USA) (1999)_M - N" : String) ≠ some ("x(USA) (1999)_M - N_" : String) := by
  exact ⟨by decide, by decide⟩

/-- Counterexample to C8: a flushed record whose 100m split is present
and positive (100000) still gets Vel_0_100m = 0, because
`round(100/100000, 2)` rounds to zero — present and finite, but not
positive as the claim states. -/
theorem velocity_zero_cex :
    ((parseCSVRows [["Date", "x", "Time", "1", "100000", "2", "3"]]).records.map
      (fun r => (r.s100, r.vel_0_100))) = [(some (some 100000), some (some 0))] := by
  decide

/-- Counterexample to C6: on `"5-3"` the claimed stripping (keep digits,
dots, and a *leading* minus only) would leave `"53"`, which converts to
53; the source keeps every minus sign, so `float("5-3")` fails and the
result is absent.  The code's behaviour differs from the claim's
description. -/
theorem parse_float_minus_cex :
    parse_float "5-3" = none ∧ parse_number_spec "5-3" = some 53 ∧
    parse_float "5-3" ≠ parse_number_spec "5-3" := by
  exact ⟨by decide, by decide, by decide⟩

/-- C6 as amended: `parse_float` is total (never raises, returns a
rational or the absent marker) and equals the procedure: empty/NA/NULL
are absent; every character that is not a digit, a decimal point, or a
minus sign (kept wherever it occurs) is stripped; conversion failure
yields absent.  The source's extra `{"", "-", "--"}` short-circuit is
absorbed because conversion fails on those strings anyway. -/
theorem parse_float_eq_amended (x : String) : parse_float x = parse_number_amended x := by
  unfold parse_float parse_number_amended
  dsimp only
  split
  · rfl
  · split
    · next h2 =>
      simp only [Bool.or_eq_true, decide_eq_true_eq] at h2
      rcases h2 with (h | h) | h <;>
        · have hl := String.ext_iff.mp h
          rw [show (String.mk ((norm x).toList.filter keepNumChar)).data =
                (norm x).toList.filter keepNumChar from rfl] at hl
          rw [hl]
          rfl
    · rfl

/-- C8 (amended): the derived-metrics computation is total and guards
all divisions: each derived velocity is absent when its prerequisite
split is absent or the segment duration is non-positive, and is present,
finite, and *nonnegative* when the prerequisites are present and the
duration is positive (the rounded value can be zero for extremely large
durations, so "positive" in the original claim is too strong). -/
theorem derived_velocity_guards (p : Pending)
    (h1 : p.vel_0_100 = none) (h2 : p.vel_100_200 = none) :
    (p.s100.join = none → (compute_derived p).vel_0_100 = none ∧
      (compute_derived p).vel_100_200 = none) ∧
    (∀ v, p.s100.join = some v → v ≤ 0 → (compute_derived p).vel_0_100 = some none) ∧
    (∀ v, p.s100.join = some v → 0 < v →
      (compute_derived p).vel_0_100 = some (some (round2 (100 / v))) ∧
        0 ≤ round2 (100 / v)) ∧
    (p.s200.join = none → (compute_derived p).vel_100_200 = none) ∧
    (∀ v w, p.s100.join = some v → p.s200.join = some w → w - v ≤ 0 →
      (compute_derived p).vel_100_200 = some none) ∧
    (∀ v w, p.s100.join = some v → p.s200.join = some w → 0 < w - v →
      (compute_derived p).vel_100_200 = some (some (round2 (100 / (w - v)))) ∧
        0 ≤ round2 (100 / (w - v))) := by
  refine ⟨?_, ?_, ?_, ?_, ?_, ?_⟩
  · intro h
    unfold compute_derived
    rw [h]
    cases h200 : p.s200.join <;> simp [h1, h2]
  · intro v hv hle
    unfold compute_derived
    rw [hv]
    cases h200 : p.s200.join <;> simp [not_lt.mpr hle]
  · intro v hv hlt
    refine ⟨?_, round2_nonneg _ (div_nonneg (by norm_num) (le_of_lt hlt))⟩
    unfold compute_derived
    rw [hv]
    cases h200 : p.s200.join <;> simp [hlt]
  · intro h
    unfold compute_derived
    rw [h]
    cases h100 : p.s100.join <;> simp [h2]
  · intro v w hv hw hle
    unfold compute_derived
    rw [hv, hw]
    simp [not_lt.mpr hle]
  · intro v w hv hw hlt
    refine ⟨?_, round2_nonneg _ (div_nonneg (by norm_num) (le_of_lt hlt))⟩
    unfold compute_derived
    rw [hv, hw]
    simp [hlt]

/-- Witness for C8: on a record with 100m = 10 and 200m = 20, both
derived velocities are present (10.00 each) and nonnegative. -/
theorem derived_velocity_guards_witness :
    (compute_derived { s100 := some (some 10), s200 := some (some 20) : Pending }).vel_0_100 =
      some (some (round2 (100 / 10))) ∧ 0 ≤ round2 ((100 : ℚ) / 10) :=
  (derived_velocity_guards { s100 := some (some 10), s200 := some (some 20) } rfl rfl).2.2.1
    10 rfl (by norm_num)

theorem stratA_eq_none_of_short (l : List ℚ) (h : l.length < 4) : stratA l = none := by
  match l with
  | [] => rfl
  | [_] => rfl
  | [_, _] => rfl
  | [_, _, _] => rfl
  | _ :: _ :: _ :: _ :: _ => simp at h; omega

/-- C3: the Date-row split extraction is two-tier.  With a `time` anchor
and at least five numeric cells after it, the first four are the splits
and the fifth the official time; with exactly four, the official time
defaults to the 200m split; with fewer than four (or no anchor), the
whole row is rescanned, and at least four whole-row numerics give the
four splits with a fifth (when present) as official time, else the 200m
split.  The extracted result is what the opened pending record stores. -/
theorem date_split_two_tier (row : List String) :
    (∀ t, find_token_idx row "time" = some t →
      (∀ a b c d e rest, numsAfter row t = a :: b :: c :: d :: e :: rest →
        splitResult row = some ⟨a, b, c, d, e⟩) ∧
      (∀ a b c d, numsAfter row t = [a, b, c, d] →
        splitResult row = some ⟨a, b, c, d, d⟩) ∧
      ((numsAfter row t).length < 4 → splitResult row = stratB (allNums row))) ∧
    (find_token_idx row "time" = none → splitResult row = stratB (allNums row)) ∧
    (∀ a b c d e rest, allNums row = a :: b :: c :: d :: e :: rest →
      stratB (allNums row) = some ⟨a, b, c, d, e⟩) ∧
    (∀ a b c d, allNums row = [a, b, c, d] →
      stratB (allNums row) = some ⟨a, b, c, d, d⟩) ∧
    (∀ st d_idx,
      (handleDate st row d_idx).pending.s50 = some ((splitResult row).map (fun r => r.a)) ∧
      (handleDate st row d_idx).pending.s100 = some ((splitResult row).map (fun r => r.b)) ∧
      (handleDate st row d_idx).pending.s150 = some ((splitResult row).map (fun r => r.c)) ∧
      (handleDate st row d_idx).pending.s200 = some ((splitResult row).map (fun r => r.d)) ∧
      (handleDate st row d_idx).pending.timeF = some ((splitResult row).map (fun r => r.t))) := by
  refine ⟨?_, ?_, ?_, ?_, ?_⟩
  · intro t ht
    refine ⟨?_, ?_, ?_⟩
    · intro a b c d e rest h
      unfold splitResult
      rw [ht]
      dsimp only
      rw [h]
      rfl
    · intro a b c d h
      unfold splitResult
      rw [ht]
      dsimp only
      rw [h]
      rfl
    · intro h
      unfold splitResult
      rw [ht]
      dsimp only
      rw [stratA_eq_none_of_short _ h]
  · intro h
    unfold splitResult
    rw [h]
  · intro a b c d e rest h
    rw [h]
    rfl
  · intro a b c d h
    rw [h]
    rfl
  · intro st d_idx
    unfold handleDate
    exact ⟨rfl, rfl, rfl, rfl, rfl⟩

/-- Witness for C3: on the row `["Time", "5.1", "x", "5.2", "5.3", "5.4",
"5.5"]` the anchor is at index 0 and five numerics follow, so the result
is splits 5.1/5.2/5.3/5.4 with official time 5.5. -/
theorem date_split_two_tier_witness :
    splitResult ["Time", "5.1", "x", "5.2", "5.3", "5.4", "5.5"] =
      some ⟨51 / 10, 26 / 5, 53 / 10, 27 / 5, 11 / 2⟩ :=
  ((date_split_two_tier ["Time", "5.1", "x", "5.2", "5.3", "5.4", "5.5"]).1 0 (by decide)).1
    (51 / 10) (26 / 5) (53 / 10) (27 / 5) (11 / 2) [] (by decide)

/-! ### Branch-selection lemmas for the row loop -/

theorem stepRow_nil (st : ParserState) (row : List String)
    (htrim : trimTrailing row = []) : stepRow st row = st := by
  unfold stepRow
  rw [htrim]

theorem stepRow_athlete (st : ParserState) (row : List String) (c0 : String) (rest : List String)
    (htrim : trimTrailing row = c0 :: rest)
    (hath : looks_like_athlete c0 = true) :
    stepRow st row = handleAthlete st c0 := by
  unfold stepRow
  rw [htrim]
  simp only [hath, if_true]

theorem stepRow_meet (st : ParserState) (row : List String) (c0 : String) (rest : List String)
    (htrim : trimTrailing row = c0 :: rest)
    (hath : looks_like_athlete c0 = false)
    (hmeet : is_meet_line (c0 :: rest) = true) :
    stepRow st row = handleMeet st (c0 :: rest) := by
  unfold stepRow
  rw [htrim]
  simp only [hath, hmeet, Bool.false_eq_true, if_false, if_true]

theorem stepRow_source (st : ParserState) (row : List String) (c0 : String) (rest : List String)
    (htrim : trimTrailing row = c0 :: rest)
    (hath : looks_like_athlete c0 = false)
    (hmeet : is_meet_line (c0 :: rest) = false)
    (hsrc : (is_source_text (joinRow (c0 :: rest)) && !row_contains_token (c0 :: rest) "date") = true) :
    stepRow st row = handleSource st (c0 :: rest) := by
  unfold stepRow
  rw [htrim]
  simp only [hath, hmeet, hsrc, Bool.false_eq_true, if_false, if_true]

theorem stepRow_date (st : ParserState) (row : List String) (c0 : String) (rest : List String) (d : Nat)
    (htrim : trimTrailing row = c0 :: rest)
    (hath : looks_like_athlete c0 = false)
    (hmeet : is_meet_line (c0 :: rest) = false)
    (hsrc : (is_source_text (joinRow (c0 :: rest)) && !row_contains_token (c0 :: rest) "date") = false)
    (hdate : find_token_idx (c0 :: rest) "date" = some d) :
    stepRow st row = handleDate st (c0 :: rest) d := by
  unfold stepRow
  rw [htrim]
  simp only [hath, hmeet, hsrc, hdate, Bool.false_eq_true, if_false]

theorem stepRow_rt (st : ParserState) (row : List String) (c0 : String) (rest : List String) (i : Nat)
    (htrim : trimTrailing row = c0 :: rest)
    (hath : looks_like_athlete c0 = false)
    (hmeet : is_meet_line (c0 :: rest) = false)
    (hsrc : (is_source_text (joinRow (c0 :: rest)) && !row_contains_token (c0 :: rest) "date") = false)
    (hdate : find_token_idx (c0 :: rest) "date" = none)
    (hrt : find_token_idx (c0 :: rest) "reaction time" = some i) :
    stepRow st row = handleRT st (c0 :: rest) i := by
  unfold stepRow
  rw [htrim]
  simp only [hath, hmeet, hsrc, hdate, hrt, Bool.false_eq_true, if_false]

theorem stepRow_wind (st : ParserState) (row : List String) (c0 : String) (rest : List String) (i : Nat)
    (htrim : trimTrailing row = c0 :: rest)
    (hath : looks_like_athlete c0 = false)
    (hmeet : is_meet_line (c0 :: rest) = false)
    (hsrc : (is_source_text (joinRow (c0 :: rest)) && !row_contains_token (c0 :: rest) "date") = false)
    (hdate : find_token_idx (c0 :: rest) "date" = none)
    (hrt : find_token_idx (c0 :: rest) "reaction time" = none)
    (hwind : find_token_idx (c0 :: rest) "wind" = some i) :
    stepRow st row = handleWind st (c0 :: rest) i := by
  unfold stepRow
  rw [htrim]
  simp only [hath, hmeet, hsrc, hdate, hrt, hwind, Bool.false_eq_true, if_false]

theorem stepRow_other (st : ParserState) (row : List String) (c0 : String) (rest : List String)
    (htrim : trimTrailing row = c0 :: rest)
    (hath : looks_like_athlete c0 = false)
    (hmeet : is_meet_line (c0 :: rest) = false)
    (hsrc : (is_source_text (joinRow (c0 :: rest)) && !row_contains_token (c0 :: rest) "date") = false)
    (hdate : find_token_idx (c0 :: rest) "date" = none)
    (hrt : find_token_idx (c0 :: rest) "reaction time" = none)
    (hwind : find_token_idx (c0 :: rest) "wind" = none) :
    stepRow st row = st := by
  unfold stepRow
  rw [htrim]
  simp only [hath, hmeet, hsrc, hdate, hrt, hwind, Bool.false_eq_true, if_false]


/-- C1 (amended): a reaction-time row (one that reaches the RT branch)
stores the parsed value in the accumulator *regardless* of whether a
record is open: the state change is exactly `pending["RT"] := parse`,
and since that makes the accumulator non-empty, the next flush emits one
extra record even when no record had been opened by a Date row. -/
theorem rt_row_writes_accumulator (st : ParserState) (row : List String)
    (c0 : String) (rest : List String) (i : Nat) (v : String)
    (htrim : trimTrailing row = c0 :: rest)
    (hath : looks_like_athlete c0 = false)
    (hmeet : is_meet_line (c0 :: rest) = false)
    (hsrc : (is_source_text (joinRow (c0 :: rest)) && !row_contains_token (c0 :: rest) "date") = false)
    (hdate : find_token_idx (c0 :: rest) "date" = none)
    (hrt : find_token_idx (c0 :: rest) "reaction time" = some i)
    (hv : first_nonempty_after (c0 :: rest) i = some v)
    (hvne : (v != "") = true) :
    stepRow st row = { st with pending := { st.pending with rt := some (parse_float v) } } ∧
    (flushState (stepRow st row)).records.length = st.records.length + 1 := by
  have hstep := stepRow_rt st row c0 rest i htrim hath hmeet hsrc hdate hrt
  have heq : handleRT st (c0 :: rest) i =
      { st with pending := { st.pending with rt := some (parse_float v) } } := by
    unfold handleRT
    rw [hv]
    simp only [hvne, if_true]
  constructor
  · rw [hstep, heq]
  · rw [hstep, heq]
    have hne : ({ st.pending with rt := some (parse_float v) } : Pending) ≠ ({} : Pending) := by
      intro h
      have h2 := congrArg Pending.rt h
      simp at h2
    unfold flushState
    dsimp only
    rw [if_neg hne]
    simp

/-- Witness for C1 (amended): the RT row arriving at the *initial* state
(no open record) still mutates the accumulator, and the following flush
emits one record. -/
theorem rt_row_writes_accumulator_witness :
    stepRow initState ["reaction time", "0.142"] =
      { initState with pending := { initState.pending with rt := some (parse_float "0.142") } } ∧
    (flushState (stepRow initState ["reaction time", "0.142"])).records.length =
      initState.records.length + 1 :=
  rt_row_writes_accumulator initState ["reaction time", "0.142"] "reaction time" ["0.142"] 0 "0.142"
    (by decide) (by decide) (by decide) (by decide) (by decide) (by decide) (by decide) (by decide)

/-- C2 (amended): the standalone-source branch is evaluated *before* the
date/reaction-time/wind branches, so a row containing a "reaction time"
or "wind" cell whose joined text matches the source-marker test and has
no "date" token is handled as a SourceLine: only the Source context can
change (to the last non-empty cell); the pending record, the records,
and the Athlete/Meet contexts are untouched. -/
theorem source_priority_amended (st : ParserState) (row : List String)
    (c0 : String) (rest : List String)
    (htok : row_contains_token (c0 :: rest) "reaction time" = true ∨
            row_contains_token (c0 :: rest) "wind" = true)
    (htrim : trimTrailing row = c0 :: rest)
    (hath : looks_like_athlete c0 = false)
    (hmeet : is_meet_line (c0 :: rest) = false)
    (hsrc : is_source_text (joinRow (c0 :: rest)) = true)
    (hdate : row_contains_token (c0 :: rest) "date" = false) :
    stepRow st row = handleSource st (c0 :: rest) ∧
    (stepRow st row).records = st.records ∧
    (stepRow st row).pending = st.pending ∧
    (stepRow st row).athleteC = st.athleteC ∧
    (stepRow st row).meetC = st.meetC ∧
    (∀ m, last_nonempty (c0 :: rest) = some m → (m != "") = true →
      (stepRow st row).sourceC = some m) := by
  have hsrc2 : (is_source_text (joinRow (c0 :: rest)) &&
      !row_contains_token (c0 :: rest) "date") = true := by
    rw [hsrc, hdate]
    rfl
  have hstep := stepRow_source st row c0 rest htrim hath hmeet hsrc2
  have hf := handleSource_fields st (c0 :: rest)
  refine ⟨hstep, ?_, ?_, ?_, ?_, ?_⟩
  · rw [hstep]; exact hf.1
  · rw [hstep]; exact hf.2.1
  · rw [hstep]; exact hf.2.2.1
  · rw [hstep]; exact hf.2.2.2
  · intro m hm hmne
    rw [hstep]
    unfold handleSource
    rw [hm]
    simp only [hmne, if_true]

/-- Witness for C2 (amended): `["wind", "+1.2", "analysis"]` contains a
"wind" cell and source-marker text, and is handled as a SourceLine. -/
theorem source_priority_amended_witness :
    stepRow initState ["wind", "+1.2", "analysis"] =
      handleSource initState ["wind", "+1.2", "analysis"] ∧
    (stepRow initState ["wind", "+1.2", "analysis"]).sourceC = some "analysis" := by
  have h := source_priority_amended initState ["wind", "+1.2", "analysis"] "wind"
    ["+1.2", "analysis"] (Or.inr (by decide)) (by decide) (by decide) (by decide)
    (by decide) (by decide)
  exact ⟨h.1, h.2.2.2.2.2 "analysis" (by decide) (by decide)⟩

/-- C5: the Athlete, Meet and Source contexts persist across rows: a step
changes the Athlete context only on an Athlete Marker row, the Meet
context only on an Athlete Marker or Meet Line row, and the Source
context only on an Athlete Marker, Meet Line or Source row; and on every
Athlete Marker row the pending record is flushed, the Athlete context is
set from the matching (first) cell, and the Meet and Source contexts are
cleared. -/
theorem context_persistence (st : ParserState) (row : List String) :
    ((stepRow st row).athleteC ≠ st.athleteC → isAthleteRow row = true) ∧
    ((stepRow st row).meetC ≠ st.meetC → isAthleteRow row = true ∨ isMeetRow row = true) ∧
    ((stepRow st row).sourceC ≠ st.sourceC →
      isAthleteRow row = true ∨ isMeetRow row = true ∨ isSourceRow row = true) ∧
    (∀ c0 rest, trimTrailing row = c0 :: rest → looks_like_athlete c0 = true →
      stepRow st row =
        { flushState st with athleteC := some c0, meetC := none, sourceC := none }) := by
  cases htrim : trimTrailing row with
  | nil =>
    have hstep := stepRow_nil st row htrim
    rw [hstep]
    refine ⟨fun h => absurd rfl h, fun h => absurd rfl h, fun h => absurd rfl h, ?_⟩
    intro c0 rest h
    exact (List.noConfusion h)
  | cons c0 rest =>
    by_cases hath : looks_like_athlete c0 = true
    · have hstep := stepRow_athlete st row c0 rest htrim hath
      have hA : isAthleteRow row = true := by
        unfold isAthleteRow
        rw [htrim]
        dsimp only
        exact hath
      refine ⟨fun _ => hA, fun _ => Or.inl hA, fun _ => Or.inl hA, ?_⟩
      intro c0' rest' h hath'
      injection h with h1 h2
      subst h1
      rw [hstep]
      rfl
    · have hathf : looks_like_athlete c0 = false := by
        cases hc : looks_like_athlete c0
        · rfl
        · exact absurd hc hath
      have hno4 : ∀ c0' rest', c0 :: rest = c0' :: rest' → looks_like_athlete c0' = true →
          stepRow st row =
            { flushState st with athleteC := some c0', meetC := none, sourceC := none } := by
        intro c0' rest' h hath'
        injection h with h1 h2
        subst h1
        rw [hath'] at hathf
        cases hathf
      by_cases hmeet : is_meet_line (c0 :: rest) = true
      · have hstep := stepRow_meet st row c0 rest htrim hathf hmeet
        have hM : isMeetRow row = true := by
          unfold isMeetRow
          rw [htrim]
          dsimp only
          rw [hathf, hmeet]
          rfl
        refine ⟨?_, fun _ => Or.inr hM, fun _ => Or.inr (Or.inl hM), hno4⟩
        intro hne
        rw [hstep, handleMeet_athleteC] at hne
        exact absurd rfl hne
      · have hmeetf : is_meet_line (c0 :: rest) = false := by
          cases hc : is_meet_line (c0 :: rest)
          · rfl
          · exact absurd hc hmeet
        by_cases hsrc : (is_source_text (joinRow (c0 :: rest)) &&
            !row_contains_token (c0 :: rest) "date") = true
        · have hstep := stepRow_source st row c0 rest htrim hathf hmeetf hsrc
          have hS : isSourceRow row = true := by
            unfold isSourceRow
            rw [htrim]
            dsimp only
            rw [hathf, hmeetf, hsrc]
            rfl
          have hf := handleSource_fields st (c0 :: rest)
          refine ⟨?_, ?_, fun _ => Or.inr (Or.inr hS), hno4⟩
          · intro hne
            rw [hstep, hf.2.2.1] at hne
            exact absurd rfl hne
          · intro hne
            rw [hstep, hf.2.2.2] at hne
            exact absurd rfl hne
        · have hsrcf : (is_source_text (joinRow (c0 :: rest)) &&
              !row_contains_token (c0 :: rest) "date") = false := by
            cases hc : (is_source_text (joinRow (c0 :: rest)) &&
                !row_contains_token (c0 :: rest) "date")
            · rfl
            · exact absurd hc hsrc
          have hnc : (stepRow st row).athleteC = st.athleteC ∧
              (stepRow st row).meetC = st.meetC ∧
              (stepRow st row).sourceC = st.sourceC := by
            cases hdate : find_token_idx (c0 :: rest) "date" with
            | some d =>
              have hstep := stepRow_date st row c0 rest d htrim hathf hmeetf hsrcf hdate
              rw [hstep]
              exact ⟨handleDate_athleteC st _ d, handleDate_meetC st _ d, handleDate_sourceC st _ d⟩
            | none =>
              cases hrt : find_token_idx (c0 :: rest) "reaction time" with
              | some i =>
                have hstep := stepRow_rt st row c0 rest i htrim hathf hmeetf hsrcf hdate hrt
                rw [hstep]
                have hc := handleRT_contexts st (c0 :: rest) i
                exact ⟨hc.1, hc.2.1, hc.2.2.1⟩
              | none =>
                cases hwind : find_token_idx (c0 :: rest) "wind" with
                | some i =>
                  have hstep := stepRow_wind st row c0 rest i htrim hathf hmeetf hsrcf hdate hrt hwind
                  rw [hstep]
                  have hc := handleWind_contexts st (c0 :: rest) i
                  exact ⟨hc.1, hc.2.1, hc.2.2.1⟩
                | none =>
                  have hstep := stepRow_other st row c0 rest htrim hathf hmeetf hsrcf hdate hrt hwind
                  rw [hstep]
                  exact ⟨rfl, rfl, rfl⟩
          refine ⟨?_, ?_, ?_, hno4⟩
          · intro hne
            rw [hnc.1] at hne
            exact absurd rfl hne
          · intro hne
            rw [hnc.2.1] at hne
            exact absurd rfl hne
          · intro hne
            rw [hnc.2.2] at hne
            exact absurd rfl hne

/-- Witness for C5: an athlete-marker row at the initial state sets the
Athlete context and clears Meet and Source. -/
theorem context_persistence_witness :
    stepRow initState ["Lyles, Noah (USA) (1997)"] =
      { flushState initState with
        athleteC := some "Lyles, Noah (USA) (1997)",
        meetC := none, sourceC := none } :=
  (context_persistence initState ["Lyles, Noah (USA) (1997)"]).2.2.2
    "Lyles, Noah (USA) (1997)" [] (by decide) (by decide)

theorem dropWhile_all_eq (p : Char → Bool) (w t : List Char) (hw : w.all p = true) :
    (w ++ t).dropWhile p = t.dropWhile p := by
  induction w with
  | nil => rfl
  | cons c cs ih =>
    simp only [List.all_cons, Bool.and_eq_true] at hw
    simp only [List.cons_append, List.dropWhile_cons, hw.1, if_true]
    exact ih hw.2

theorem dropWhile_cons_neg (p : Char → Bool) (c : Char) (cs : List Char) (h : p c = false) :
    (c :: cs).dropWhile p = c :: cs := by
  simp [List.dropWhile_cons, h]

theorem stripEnds_sandwich (p : Char → Bool) (w1 core w2 : List Char)
    (hw1 : w1.all p = true) (hw2 : w2.all p = true)
    (hHead : ∀ c, core.head? = some c → p c = false)
    (hLast : ∀ c, core.getLast? = some c → p c = false) :
    stripEnds p (w1 ++ core ++ w2) = core := by
  unfold stripEnds
  cases hcore : core with
  | nil =>
    subst hcore
    have h1 : ((w1 ++ [] ++ w2).dropWhile p) = [] := by
      rw [List.append_nil, dropWhile_all_eq p w1 w2 hw1]
      have h2 := dropWhile_all_eq p w2 [] hw2
      rw [List.append_nil] at h2
      simpa using h2
    rw [h1]
    rfl
  | cons d core' =>
    have hd : p d = false := hHead d (by rw [hcore]; rfl)
    subst hcore
    have hfront : ((w1 ++ (d :: core') ++ w2).dropWhile p) = (d :: core') ++ w2 := by
      rw [List.append_assoc, dropWhile_all_eq p w1 _ hw1]
      exact dropWhile_cons_neg p d (core' ++ w2) hd
    rw [hfront, List.reverse_append,
      dropWhile_all_eq p w2.reverse _ (by rw [List.all_reverse]; exact hw2)]
    cases hrev : (d :: core').reverse with
    | nil => exact absurd (by simpa using hrev) (List.cons_ne_nil d core')
    | cons l tl =>
      have hl : (d :: core').getLast? = some l := by
        rw [← List.head?_reverse, hrev]
        rfl
      have hpl : p l = false := hLast l hl
      rw [dropWhile_cons_neg p l tl hpl, ← hrev, List.reverse_reverse]

theorem data_eq_nil_iff (a : String) : a.data = [] ↔ a = "" := by
  constructor
  · intro h
    apply String.ext
    rw [h]
  · intro h
    rw [h]

theorem keyOfComponents_toList (a m s : String) :
    keyOfComponents a m s =
      String.mk (stripEnds (fun c => c = '_') (a.data ++ '_' :: (m.data ++ '_' :: s.data))) := by
  unfold keyOfComponents stripUnderscores
  congr 1
  congr 1
  show (a ++ "_" ++ m ++ "_" ++ s).data = a.data ++ '_' :: (m.data ++ '_' :: s.data)
  simp [String.data_append, show ("_" : String).data = ['_'] from rfl, List.append_assoc]

theorem mk_data (s : String) : String.mk s.data = s := rfl

theorem headOpt_append (l l2 : List Char) (h : l ≠ []) : (l ++ l2).head? = l.head? := by
  cases l with
  | nil => exact absurd rfl h
  | cons x xs => rfl

theorem noUnderscoreHead (L : List Char) (h : L.head? ≠ some '_') :
    ∀ c, L.head? = some c → (decide (c = '_')) = false := by
  intro c hc
  apply decide_eq_false
  intro he
  subst he
  exact h hc

theorem noUnderscoreLast (L : List Char) (h : L.getLast? ≠ some '_') :
    ∀ c, L.getLast? = some c → (decide (c = '_')) = false := by
  intro c hc
  apply decide_eq_false
  intro he
  subst he
  exact h hc

theorem stripEnds_core (p : Char → Bool) (core : List Char)
    (hH : ∀ c, core.head? = some c → p c = false)
    (hL : ∀ c, core.getLast? = some c → p c = false) :
    stripEnds p core = core := by
  have h := stripEnds_sandwich p [] core [] rfl rfl hH hL
  simpa using h

theorem stripEnds_core_back (p : Char → Bool) (core w2 : List Char) (hw2 : w2.all p = true)
    (hH : ∀ c, core.head? = some c → p c = false)
    (hL : ∀ c, core.getLast? = some c → p c = false) :
    stripEnds p (core ++ w2) = core := by
  have h := stripEnds_sandwich p [] core w2 rfl hw2 hH hL
  simpa using h

theorem stripEnds_front_core (p : Char → Bool) (w1 core : List Char) (hw1 : w1.all p = true)
    (hH : ∀ c, core.head? = some c → p c = false)
    (hL : ∀ c, core.getLast? = some c → p c = false) :
    stripEnds p (w1 ++ core) = core := by
  have h := stripEnds_sandwich p w1 core [] hw1 rfl hH hL
  simpa using h

/-- C7 (amended): the key equals the claim's join-with-empty-components-
omitted whenever no component itself starts or ends with an underscore
and an empty Meet component occurs only alongside an empty Athlete or an
empty Stride Rate; in general the source joins the three rendered
components with underscores unconditionally and then strips *all*
leading and trailing underscores, which also removes underscores that
belong to the outermost nonempty components. -/
theorem key_join_amended (a m s : String)
    (haH : a.data.head? ≠ some '_') (haL : a.data.getLast? ≠ some '_')
    (hmH : m.data.head? ≠ some '_') (hmL : m.data.getLast? ≠ some '_')
    (hsH : s.data.head? ≠ some '_') (hsL : s.data.getLast? ≠ some '_')
    (hmid : m = "" → a = "" ∨ s = "") :
    keyOfComponents a m s = joinOmitEmpty [a, m, s] := by
  rw [keyOfComponents_toList]
  by_cases ea : a = ""
  · by_cases em : m = ""
    · by_cases es : s = ""
      · subst ea; subst em; subst es
        decide
      · -- a = "", m = "", s ≠ ""
        subst ea; subst em
        have hshape : ("" : String).data ++ '_' :: (("" : String).data ++ '_' :: s.data) =
            ['_', '_'] ++ s.data := by simp
        rw [hshape, stripEnds_front_core _ _ _ (by decide)
          (noUnderscoreHead _ hsH) (noUnderscoreLast _ hsL)]
        have hj : joinOmitEmpty ["", "", s] = s := by
          unfold joinOmitEmpty
          simp only [List.filter_cons, show (("" : String) != "") = false from by decide,
            bne_iff_ne.mpr es, if_true, if_false, List.filter_nil]
          rfl
        rw [hj, mk_data]
    · by_cases es : s = ""
      · -- a = "", m ≠ "", s = ""
        subst ea; subst es
        have hMne : m.data ≠ [] := fun h => em ((data_eq_nil_iff m).mp h)
        have hshape : ("" : String).data ++ '_' :: (m.data ++ '_' :: ("" : String).data) =
            ['_'] ++ m.data ++ ['_'] := by simp
        rw [hshape, stripEnds_sandwich _ _ _ _ (by decide) (by decide)
          (noUnderscoreHead _ hmH) (noUnderscoreLast _ hmL)]
        have hj : joinOmitEmpty ["", m, ""] = m := by
          unfold joinOmitEmpty
          simp only [List.filter_cons, show (("" : String) != "") = false from by decide,
            bne_iff_ne.mpr em, if_true, if_false, List.filter_nil]
          rfl
        rw [hj, mk_data]
      · -- a = "", m ≠ "", s ≠ ""
        subst ea
        have hMne : m.data ≠ [] := fun h => em ((data_eq_nil_iff m).mp h)
        have hSne : s.data ≠ [] := fun h => es ((data_eq_nil_iff s).mp h)
        have hshape : ("" : String).data ++ '_' :: (m.data ++ '_' :: s.data) =
            ['_'] ++ (m.data ++ '_' :: s.data) := by simp
        have hH : ∀ c, (m.data ++ '_' :: s.data).head? = some c → (decide (c = '_')) = false := by
          rw [headOpt_append _ _ hMne]
          exact noUnderscoreHead _ hmH
        have hL : ∀ c, (m.data ++ '_' :: s.data).getLast? = some c → (decide (c = '_')) = false := by
          have hsplit : m.data ++ '_' :: s.data = (m.data ++ ['_']) ++ s.data := by
            simp [List.append_assoc]
          rw [hsplit, List.getLast?_append_of_ne_nil _ hSne]
          exact noUnderscoreLast _ hsL
        rw [hshape, stripEnds_front_core _ _ _ (by decide) hH hL]
        have hj : joinOmitEmpty ["", m, s] = m ++ "_" ++ s := by
          unfold joinOmitEmpty
          simp only [List.filter_cons, show (("" : String) != "") = false from by decide,
            bne_iff_ne.mpr em, bne_iff_ne.mpr es, if_true, if_false, List.filter_nil]
          rfl
        rw [hj]
        apply String.ext
        show m.data ++ '_' :: s.data = (m ++ "_" ++ s).data
        simp [String.data_append, show ("_" : String).data = ['_'] from rfl]
  · have hAne : a.data ≠ [] := fun h => ea ((data_eq_nil_iff a).mp h)
    by_cases em : m = ""
    · -- m = "", a ≠ "" forces s = ""
      have es : s = "" := (hmid em).resolve_left ea
      subst em; subst es
      have hshape : a.data ++ '_' :: (("" : String).data ++ '_' :: ("" : String).data) =
          a.data ++ ['_', '_'] := by simp
      rw [hshape, stripEnds_core_back _ _ _ (by decide)
        (noUnderscoreHead _ haH) (noUnderscoreLast _ haL)]
      have hj : joinOmitEmpty [a, "", ""] = a := by
        unfold joinOmitEmpty
        simp only [List.filter_cons, show (("" : String) != "") = false from by decide,
          bne_iff_ne.mpr ea, if_true, if_false, List.filter_nil]
        rfl
      rw [hj, mk_data]
    · have hMne : m.data ≠ [] := fun h => em ((data_eq_nil_iff m).mp h)
      by_cases es : s = ""
      · -- a ≠ "", m ≠ "", s = ""
        subst es
        have hshape : a.data ++ '_' :: (m.data ++ '_' :: ("" : String).data) =
            (a.data ++ '_' :: m.data) ++ ['_'] := by simp [List.append_assoc]
        have hH : ∀ c, (a.data ++ '_' :: m.data).head? = some c → (decide (c = '_')) = false := by
          rw [headOpt_append _ _ hAne]
          exact noUnderscoreHead _ haH
        have hL : ∀ c, (a.data ++ '_' :: m.data).getLast? = some c → (decide (c = '_')) = false := by
          have hsplit : a.data ++ '_' :: m.data = (a.data ++ ['_']) ++ m.data := by
            simp [List.append_assoc]
          rw [hsplit, List.getLast?_append_of_ne_nil _ hMne]
          exact noUnderscoreLast _ hmL
        rw [hshape, stripEnds_core_back _ _ _ (by decide) hH hL]
        have hj : joinOmitEmpty [a, m, ""] = a ++ "_" ++ m := by
          unfold joinOmitEmpty
          simp only [List.filter_cons, show (("" : String) != "") = false from by decide,
            bne_iff_ne.mpr ea, bne_iff_ne.mpr em, if_true, if_false, List.filter_nil]
          rfl
        rw [hj]
        apply String.ext
        show a.data ++ '_' :: m.data = (a ++ "_" ++ m).data
        simp [String.data_append, show ("_" : String).data = ['_'] from rfl]
      · -- all nonempty
        have hSne : s.data ≠ [] := fun h => es ((data_eq_nil_iff s).mp h)
        have hH : ∀ c, (a.data ++ '_' :: (m.data ++ '_' :: s.data)).head? = some c →
            (decide (c = '_')) = false := by
          rw [headOpt_append _ _ hAne]
          exact noUnderscoreHead _ haH
        have hL : ∀ c, (a.data ++ '_' :: (m.data ++ '_' :: s.data)).getLast? = some c →
            (decide (c = '_')) = false := by
          have hsplit : a.data ++ '_' :: (m.data ++ '_' :: s.data) =
              (a.data ++ '_' :: m.data ++ ['_']) ++ s.data := by
            simp [List.append_assoc]
          rw [hsplit, List.getLast?_append_of_ne_nil _ hSne]
          exact noUnderscoreLast _ hsL
        rw [stripEnds_core _ _ hH hL]
        have hj : joinOmitEmpty [a, m, s] = a ++ "_" ++ m ++ "_" ++ s := by
          unfold joinOmitEmpty
          simp only [List.filter_cons, bne_iff_ne.mpr ea, bne_iff_ne.mpr em,
            bne_iff_ne.mpr es, if_true, List.filter_nil]
          rfl
        rw [hj]
        apply String.ext
        show a.data ++ '_' :: (m.data ++ '_' :: s.data) = (a ++ "_" ++ m ++ "_" ++ s).data
        simp [String.data_append, show ("_" : String).data = ['_'] from rfl]

/-- Witness for C7 (amended): clean components join with empties omitted. -/
theorem key_join_amended_witness :
    keyOfComponents "A" "B" "25" = joinOmitEmpty ["A", "B", "25"] :=
  key_join_amended "A" "B" "25" (by decide) (by decide) (by decide) (by decide)
    (by decide) (by decide) (fun h => absurd h (by decide))

theorem all_takeWhile (p : Char → Bool) (l : List Char) : (l.takeWhile p).all p = true := by
  induction l with
  | nil => rfl
  | cons x xs ih =>
    rw [List.takeWhile_cons]
    split
    · next hx => simp [List.all_cons, hx, ih]
    · rfl

theorem dropWhile_decomp (p : Char → Bool) (l r : List Char)
    (hr : ∀ c, r.head? = some c → p c = false) :
    l.dropWhile p = r ↔ ∃ w, l = w ++ r ∧ w.all p = true := by
  constructor
  · intro h
    refine ⟨l.takeWhile p, ?_, all_takeWhile p l⟩
    rw [← h, List.takeWhile_append_dropWhile]
  · rintro ⟨w, rfl, hw⟩
    rw [dropWhile_all_eq p w r hw]
    cases hrc : r with
    | nil => rfl
    | cons x xs => exact dropWhile_cons_neg p x xs (hr x (by rw [hrc]; rfl))

theorem head_paren_not_ws (L : List Char) :
    ∀ x, (('(' :: L).head? = some x) → Char.isWhitespace x = false := by
  intro x hx
  have h : '(' = x := by injection hx
  subst h
  decide

theorem yearPat_iff (l : List Char) :
    yearPat l = true ↔ ∃ d1 d2 d3 d4 t, l = '(' :: d1 :: d2 :: d3 :: d4 :: ')' :: t ∧
      d1.isDigit = true ∧ d2.isDigit = true ∧ d3.isDigit = true ∧ d4.isDigit = true := by
  constructor
  · intro h
    rw [yearPat.eq_def] at h
    split at h
    · next d1 d2 d3 d4 t =>
      simp only [Bool.and_eq_true] at h
      exact ⟨d1, d2, d3, d4, t, rfl, h.1.1.1, h.1.1.2, h.1.2, h.2⟩
    · cases h
  · rintro ⟨d1, d2, d3, d4, t, rfl, h1, h2, h3, h4⟩
    simp [yearPat, h1, h2, h3, h4]

theorem patAt_iff (l : List Char) :
    patAt l = true ↔ ∃ u1 u2 u3 rest, l = '(' :: u1 :: u2 :: u3 :: ')' :: rest ∧
      u1.isUpper = true ∧ u2.isUpper = true ∧ u3.isUpper = true ∧
      yearPat (rest.dropWhile Char.isWhitespace) = true := by
  constructor
  · intro h
    rw [patAt.eq_def] at h
    split at h
    · next u1 u2 u3 rest =>
      simp only [Bool.and_eq_true] at h
      exact ⟨u1, u2, u3, rest, rfl, h.1.1.1, h.1.1.2, h.1.2, h.2⟩
    · cases h
  · rintro ⟨u1, u2, u3, rest, rfl, h1, h2, h3, h4⟩
    simp [patAt, h1, h2, h3, h4]

theorem patSearch_iff (l : List Char) :
    patSearch l = true ↔ ∃ pre u1 u2 u3 ws d1 d2 d3 d4 suf,
      l = pre ++ '(' :: u1 :: u2 :: u3 :: ')' ::
        (ws ++ '(' :: d1 :: d2 :: d3 :: d4 :: ')' :: suf) ∧
      u1.isUpper = true ∧ u2.isUpper = true ∧ u3.isUpper = true ∧
      ws.all Char.isWhitespace = true ∧
      d1.isDigit = true ∧ d2.isDigit = true ∧ d3.isDigit = true ∧ d4.isDigit = true := by
  induction l with
  | nil =>
    constructor
    · intro h
      cases h
    · rintro ⟨pre, u1, u2, u3, ws, d1, d2, d3, d4, suf, heq, -⟩
      have hlen := congrArg List.length heq
      simp [List.length_append] at hlen
      omega
  | cons c cs ih =>
    simp only [patSearch]
    rw [Bool.or_eq_true, patAt_iff, ih]
    constructor
    · rintro (⟨u1, u2, u3, rest, heq, h1, h2, h3, h4⟩ |
        ⟨pre, u1, u2, u3, ws, d1, d2, d3, d4, suf, heq, h1, h2, h3, hws, hd1, hd2, hd3, hd4⟩)
      · rcases (yearPat_iff _).mp h4 with ⟨d1, d2, d3, d4, t, hdrop, hd1, hd2, hd3, hd4⟩
        rcases (dropWhile_decomp Char.isWhitespace rest _
            (head_paren_not_ws _)).mp hdrop with ⟨w, hw, hwall⟩
        refine ⟨[], u1, u2, u3, w, d1, d2, d3, d4, t, ?_, h1, h2, h3, hwall, hd1, hd2, hd3, hd4⟩
        rw [List.nil_append, heq, hw]
      · exact ⟨c :: pre, u1, u2, u3, ws, d1, d2, d3, d4, suf, by rw [List.cons_append, ← heq],
          h1, h2, h3, hws, hd1, hd2, hd3, hd4⟩
    · rintro ⟨pre, u1, u2, u3, ws, d1, d2, d3, d4, suf, heq, h1, h2, h3, hws, hd1, hd2, hd3, hd4⟩
      cases pre with
      | nil =>
        left
        refine ⟨u1, u2, u3, ws ++ '(' :: d1 :: d2 :: d3 :: d4 :: ')' :: suf,
          by simpa using heq, h1, h2, h3, ?_⟩
        rw [(dropWhile_decomp Char.isWhitespace _ _ (head_paren_not_ws _)).mpr ⟨ws, rfl, hws⟩]
        exact (yearPat_iff _).mpr ⟨d1, d2, d3, d4, suf, rfl, hd1, hd2, hd3, hd4⟩
      | cons x pre2 =>
        right
        rw [List.cons_append] at heq
        injection heq with hcx hcs
        exact ⟨pre2, u1, u2, u3, ws, d1, d2, d3, d4, suf, hcs, h1, h2, h3, hws,
          hd1, hd2, hd3, hd4⟩

/-- C10: a cell is recognized as an Athlete Marker by the regex search
alone: `looks_like_athlete` holds exactly when, anywhere in the
normalized cell, a parenthesized run of three uppercase letters is
followed (across optional whitespace) by a parenthesized run of four
digits — no surname, comma, or given-name structure is checked; in
particular the bare cell `"(USA) (1999)"` is recognized, and a row with
that first cell is handled as an athlete header (flush, set Athlete
context, clear Meet and Source). -/
theorem athlete_marker_characterization :
    (∀ cell : String, looks_like_athlete cell = true ↔
      ∃ pre u1 u2 u3 ws d1 d2 d3 d4 suf,
        (norm cell).data = pre ++ '(' :: u1 :: u2 :: u3 :: ')' ::
          (ws ++ '(' :: d1 :: d2 :: d3 :: d4 :: ')' :: suf) ∧
        u1.isUpper = true ∧ u2.isUpper = true ∧ u3.isUpper = true ∧
        ws.all Char.isWhitespace = true ∧
        d1.isDigit = true ∧ d2.isDigit = true ∧ d3.isDigit = true ∧ d4.isDigit = true) ∧
    looks_like_athlete "(USA) (1999)" = true ∧
    (∀ st : ParserState, stepRow st ["(USA) (1999)"] =
      { flushState st with
        athleteC := some "(USA) (1999)", meetC := none, sourceC := none }) := by
  refine ⟨?_, by decide, ?_⟩
  · intro cell
    exact patSearch_iff (norm cell).data
  · intro st
    have h := stepRow_athlete st ["(USA) (1999)"] "(USA) (1999)" [] (by decide) (by decide)
    rw [h]
    rfl

/-- Witness for C10: the decomposition direction applied at a concrete
cell with surrounding noise. -/
theorem athlete_marker_characterization_witness :
    looks_like_athlete "x(USA) (1999)y" = true :=
  (athlete_marker_characterization.1 "x(USA) (1999)y").mpr
    ⟨['x'], 'U', 'S', 'A', [' '], '1', '9', '9', '9', ['y'], by decide, by decide, by decide,
      by decide, by decide, by decide, by decide, by decide, by decide⟩
